import Mathlib

/-!
Verification development for the ironchain trading controller.

Each definition below is a shallow embedding of the corresponding
TypeScript source. JavaScript `number` values are modelled as `ℚ`
(exact rational arithmetic; the source only uses +, -, *, /, abs,
min, max and comparisons on finite values). Millisecond timestamps
are modelled as `ℤ` (or `ℕ` for candle bucket arithmetic, where the
source floors a non-negative epoch time). Fallible code returns
`Except String`. Stateful classes are modelled by explicit state
records with state-passing functions. `Date.now()` is passed in as
an explicit `now` argument. Network calls (price providers) are
passed in as explicit outcome arguments of type `Except`.
-/

namespace Ironchain

/-! ## PositionSizer (src/risk/position-sizer.ts) -/

/-- Embeds `PositionSizeParams` from src/risk/position-sizer.ts. -/
structure PositionSizeParams where
  equity : ℚ
  entryPrice : ℚ
  stopPrice : ℚ
  riskPercent : ℚ
  maxPositionPercent : ℚ
deriving DecidableEq, Repr

/-- Embeds `PositionSize` from src/risk/position-sizer.ts. -/
structure PositionSize where
  sizeUSDC : ℚ
  sizeSOL : ℚ
  potentialLoss : ℚ
  percentOfEquity : ℚ
deriving DecidableEq, Repr

namespace PositionSizer

/-- Embeds `PositionSizer.calculate` from src/risk/position-sizer.ts.
The thrown `Error` on a zero stop distance becomes `Except.error`. -/
def calculate (params : PositionSizeParams) : Except String PositionSize :=
  let riskAmount := params.equity * params.riskPercent
  let stopDistance := |params.entryPrice - params.stopPrice|
  if stopDistance = 0 then
    Except.error "Stop price cannot equal entry price"
  else
    let riskBasedSize := riskAmount / stopDistance
    let maxPositionUSDC := params.equity * params.maxPositionPercent
    let finalSizeUSDC := min riskBasedSize maxPositionUSDC
    let sizeSOL := finalSizeUSDC / params.entryPrice
    let potentialLoss := sizeSOL * stopDistance
    let percentOfEquity := finalSizeUSDC / params.equity
    Except.ok ⟨finalSizeUSDC, sizeSOL, potentialLoss, percentOfEquity⟩

end PositionSizer

/-! ## RiskManager (src/risk/risk-manager.ts) -/

/-- The slice of `RiskConfig` read by `RiskManager`. -/
structure RiskConfig where
  maxDrawdownPercent : ℚ
  enableKillSwitch : Bool
deriving DecidableEq, Repr

/-- Embeds the mutable fields of class `RiskManager`
(src/risk/risk-manager.ts). `openPositions` is omitted: it is
read and written only by the position-list helpers, which no
claim concerns. `startupGraceMs` is the fixed 60000 from the
source. -/
structure RiskManagerState where
  highWaterMark : ℚ
  currentEquity : ℚ
  killSwitchTriggered : Bool
  startedAt : ℤ
deriving DecidableEq, Repr

namespace RiskManager

/-- The fixed startup grace period: `60 * 1000` ms. -/
def startupGraceMs : ℤ := 60 * 1000

/-- Embeds the `RiskManager` constructor. -/
def init (initialEquity : ℚ) (startedAt : ℤ) : RiskManagerState :=
  ⟨initialEquity, initialEquity, false, startedAt⟩

/-- Embeds `RiskManager.updateEquity`. -/
def updateEquity (s : RiskManagerState) (newEquity : ℚ) : RiskManagerState :=
  { s with
    currentEquity := newEquity
    highWaterMark := if newEquity > s.highWaterMark then newEquity else s.highWaterMark }

/-- Embeds `RiskManager.checkDrawdown`. Returns the reported
`currentDD` together with the post-state (the source mutates
`killSwitchTriggered` in place; the returned flag equals the
post-state's flag). -/
def checkDrawdown (cfg : RiskConfig) (s : RiskManagerState) : ℚ × RiskManagerState :=
  let drawdown := (s.highWaterMark - s.currentEquity) / s.highWaterMark
  if cfg.enableKillSwitch = true ∧ drawdown ≥ cfg.maxDrawdownPercent then
    (drawdown, { s with killSwitchTriggered := true })
  else
    (drawdown, s)

/-- Embeds `RiskStatus` from src/risk/risk-manager.ts. The numeric
interpolation inside the reason string is not modelled; only the
presence and fixed prefix of the reason is. -/
structure RiskStatus where
  canTrade : Bool
  reason : Option String
  currentDrawdown : ℚ
  highWaterMark : ℚ
  currentEquity : ℚ
deriving DecidableEq, Repr

/-- Embeds `RiskManager.canTrade`. `Date.now()` is the explicit
`now` argument. The 80%-of-limit branch only logs a console
warning, so it has no effect on the returned status. -/
def canTrade (cfg : RiskConfig) (s : RiskManagerState) (now : ℤ) :
    RiskStatus × RiskManagerState :=
  let dc := checkDrawdown cfg s
  let s1 := dc.2
  if now - s.startedAt < startupGraceMs then
    (⟨true, none, dc.1, s1.highWaterMark, s1.currentEquity⟩, s1)
  else if s1.killSwitchTriggered = true then
    (⟨false, some "Kill switch triggered", dc.1, s1.highWaterMark, s1.currentEquity⟩, s1)
  else
    (⟨true, none, dc.1, s1.highWaterMark, s1.currentEquity⟩, s1)

/-- Embeds `RiskManager.reset`. -/
def reset (s : RiskManagerState) : RiskManagerState :=
  { s with killSwitchTriggered := false, highWaterMark := s.currentEquity }

/-- Embeds `RiskManager.isKillSwitchTriggered`. -/
def isKillSwitchTriggered (s : RiskManagerState) : Bool :=
  s.killSwitchTriggered

end RiskManager

/-- One externally callable state-mutating `RiskManager` operation
(the equity/drawdown interface the claims quantify over). -/
inductive RMOp where
  | updateEq (v : ℚ)
  | checkDD
  | trade (now : ℤ)
  | reset
deriving DecidableEq, Repr

/-- Apply one `RMOp` to a `RiskManagerState`. -/
def applyOp (cfg : RiskConfig) (s : RiskManagerState) : RMOp → RiskManagerState
  | RMOp.updateEq v => RiskManager.updateEquity s v
  | RMOp.checkDD => (RiskManager.checkDrawdown cfg s).2
  | RMOp.trade now => (RiskManager.canTrade cfg s now).2
  | RMOp.reset => RiskManager.reset s

/-- Run a sequence of `RMOp`s in order. -/
def runOps (cfg : RiskConfig) (s : RiskManagerState) (ops : List RMOp) : RiskManagerState :=
  ops.foldl (applyOp cfg) s

/-! ## CandleBuilder (src/data/candle-builder.ts) -/

/-- Embeds interface `Candle`. The `open` field is named `open_`
because `open` is a Lean keyword. -/
structure Candle where
  timestamp : ℕ
  open_ : ℚ
  high : ℚ
  low : ℚ
  close : ℚ
  volume : ℚ
deriving DecidableEq, Repr

/-- Embeds interface `TickData` (`volume` is optional; the source
reads it as `tick.volume || 0`). -/
structure TickData where
  price : ℚ
  timestamp : ℕ
  volume : Option ℚ
deriving DecidableEq, Repr

/-- The per-timeframe slice of `CandleBuilder`'s state: the closed
history for the timeframe and the in-progress candle (or null). -/
structure TFState where
  history : List Candle
  current : Option Candle
deriving DecidableEq, Repr

namespace CandleBuilder

/-- The `maxCandles` cap from the source. -/
def maxCandles : ℕ := 1000

/-- Embeds `CandleBuilder.getCandleStartTime`:
`Math.floor(timestamp / ms) * ms` with `ms = minutes * 60 * 1000`
(here `tfMs` is already the duration in ms; `Nat` division floors). -/
def getCandleStartTime (tfMs : ℕ) (timestamp : ℕ) : ℕ :=
  timestamp / tfMs * tfMs

/-- Embeds `CandleBuilder.closeCandle` for one timeframe: push the
sealed candle, then drop the oldest entry if over `maxCandles`. -/
def closeCandle (history : List Candle) (candle : Candle) : List Candle :=
  let l := history ++ [candle]
  if maxCandles < l.length then l.tail else l

/-- Embeds `CandleBuilder.updateCandle` for one timeframe of
duration `tfMs` ms. -/
def updateCandle (tfMs : ℕ) (tick : TickData) (s : TFState) : TFState :=
  let candleStart := getCandleStartTime tfMs tick.timestamp
  match s.current with
  | some c =>
    if c.timestamp ≠ candleStart then
      -- seal the in-progress candle, then open a fresh one
      ⟨closeCandle s.history c,
       some ⟨candleStart, tick.price, tick.price, tick.price, tick.price,
             tick.volume.getD 0⟩⟩
    else
      ⟨s.history,
       some { c with
              high := max c.high tick.price
              low := min c.low tick.price
              close := tick.price
              volume := c.volume + tick.volume.getD 0 }⟩
  | none =>
    ⟨s.history,
     some ⟨candleStart, tick.price, tick.price, tick.price, tick.price,
           tick.volume.getD 0⟩⟩

end CandleBuilder

/-- The full `CandleBuilder` state: the constructor tracks exactly
the timeframes 15m, 1h and 4h. -/
structure BuilderState where
  m15 : TFState
  h1 : TFState
  h4 : TFState
deriving DecidableEq, Repr

namespace CandleBuilder

/-- Embeds the `CandleBuilder` constructor: empty history and no
in-progress candle for each tracked timeframe. -/
def initBuilder : BuilderState :=
  ⟨⟨[], none⟩, ⟨[], none⟩, ⟨[], none⟩⟩

/-- Embeds `CandleBuilder.addTick`: updates every tracked timeframe
(15m = 900000 ms, 1h = 3600000 ms, 4h = 14400000 ms). -/
def addTick (tick : TickData) (b : BuilderState) : BuilderState :=
  ⟨updateCandle 900000 tick b.m15,
   updateCandle 3600000 tick b.h1,
   updateCandle 14400000 tick b.h4⟩

/-- Feed a whole tick sequence from the fresh constructor state. -/
def runTicks (ticks : List TickData) : BuilderState :=
  ticks.foldl (fun b t => addTick t b) initBuilder

end CandleBuilder

/-! ## ExitManager (src/strategy/exit-manager.ts) -/

/-- Embeds interface `Position`. -/
structure Position where
  entryPrice : ℚ
  amount : ℚ
  stopPrice : ℚ
  entryTime : ℤ
  partialTaken : Bool
  trailingStopActive : Bool
deriving DecidableEq, Repr

/-- The `exitType` union of interface `ExitSignal`. -/
inductive ExitType where
  | stop
  | partialTP
  | trailing
  | time
  | none
deriving DecidableEq, Repr

/-- Embeds interface `ExitSignal`. The numeric interpolation in the
`reasons` strings is not modelled. -/
structure ExitSignal where
  shouldExit : Bool
  exitType : ExitType
  percentage : ℚ
  exitPrice : ℚ
  newStop : Option ℚ
  reasons : List String
  rMultiple : Option ℚ
deriving DecidableEq, Repr

/-- The slice of `ExitConfig` read by `ExitManager`. -/
structure ExitConfig where
  stopLossATRMultiplier : ℚ
  partialTPRMultiple : ℚ
  partialTPPercent : ℚ
  trailingEMAPeriod : ℕ
  timeExitHours : ℚ
  timeExitMinR : ℚ
deriving DecidableEq, Repr

/-! ## Indicators (src/strategy/indicators.ts)

`calculateEMA` and `calculateADX` delegate to the external
`technicalindicators` npm package; `emaCalc`, `wema` and `adxCalc`
below embed that library's algorithms (EMA seeded with the SMA of
the first `period` values, Wilder smoothing for ADX). The property
the claims rely on is the library's output-length behaviour: no
output until the input is long enough. Division by zero yields 0
in `ℚ` where JavaScript would produce NaN/Infinity; no claim
depends on such inputs. -/

/-- EMA series of the external library: empty until `period` values
are available, then the SMA seed followed by exponential smoothing
with factor `2 / (period + 1)`. -/
def emaCalc (period : ℕ) (values : List ℚ) : List ℚ :=
  if values.length < period then []
  else
    let seed := (values.take period).sum / (period : ℚ)
    (values.drop period).scanl (fun prev v => (v - prev) * (2 / ((period : ℚ) + 1)) + prev) seed

/-- Wilder moving average (WEMA) of the external library: empty
until `period` values are available, then the SMA seed followed by
smoothing with factor `1 / period`. -/
def wema (period : ℕ) (values : List ℚ) : List ℚ :=
  if values.length < period then []
  else
    let seed := (values.take period).sum / (period : ℚ)
    (values.drop period).scanl (fun prev v => (v - prev) / (period : ℚ) + prev) seed

/-- True-range series (defined from the second candle on). -/
def trueRanges (candles : List Ironchain.Candle) : List ℚ :=
  List.zipWith
    (fun prev cur =>
      max (cur.high - cur.low) (max |cur.high - prev.close| |cur.low - prev.close|))
    candles candles.tail

/-- Positive directional-movement series. -/
def plusDMs (candles : List Ironchain.Candle) : List ℚ :=
  List.zipWith
    (fun prev cur =>
      let up := cur.high - prev.high
      let down := prev.low - cur.low
      if up > down ∧ up > 0 then up else 0)
    candles candles.tail

/-- Negative directional-movement series. -/
def minusDMs (candles : List Ironchain.Candle) : List ℚ :=
  List.zipWith
    (fun prev cur =>
      let up := cur.high - prev.high
      let down := prev.low - cur.low
      if down > up ∧ down > 0 then down else 0)
    candles candles.tail

/-- ADX series of the external library: Wilder-smoothed TR and
directional movements give the directional indices, whose
normalized difference (DX) is Wilder-smoothed again. -/
def adxCalc (period : ℕ) (candles : List Ironchain.Candle) : List ℚ :=
  let atr := wema period (trueRanges candles)
  let apdm := wema period (plusDMs candles)
  let amdm := wema period (minusDMs candles)
  let pdi := List.zipWith (fun p a => p * 100 / a) apdm atr
  let mdi := List.zipWith (fun m a => m * 100 / a) amdm atr
  let dx := List.zipWith (fun p m => |p - m| / (p + m) * 100) pdi mdi
  wema period dx

/-- Embeds `getLatestEMA`: last element of the EMA series over the
close prices, or null when the series is empty. -/
def getLatestEMA (candles : List Ironchain.Candle) (period : ℕ) : Option ℚ :=
  (emaCalc period (candles.map Ironchain.Candle.close)).getLast?

/-- Embeds `getLatestADX`: last element of the ADX series, or null
when the series is empty. -/
def getLatestADX (candles : List Ironchain.Candle) (period : ℕ) : Option ℚ :=
  (adxCalc period candles).getLast?

namespace ExitManager

/-- Embeds `ExitManager.checkExit`. `Date.now()` is the explicit
`now` argument. The JavaScript truthiness test `ema &&` on the
trailing EMA is false for null and for 0. -/
def checkExit (cfg : ExitConfig) (position : Position) (candles : List Candle)
    (currentPrice : ℚ) (now : ℤ) : ExitSignal :=
  let risk := position.entryPrice - position.stopPrice
  let profit := currentPrice - position.entryPrice
  let rMultiple := profit / risk
  -- Check 1: Stop Loss
  if currentPrice ≤ position.stopPrice then
    ⟨true, ExitType.stop, 1, currentPrice, Option.none,
     ["Stop loss hit"], some rMultiple⟩
  -- Check 2: Partial Take Profit (if not already taken)
  else if position.partialTaken = false ∧ rMultiple ≥ cfg.partialTPRMultiple then
    ⟨true, ExitType.partialTP, cfg.partialTPPercent, currentPrice,
     some position.entryPrice,
     ["Partial TP", "Taking profit", "Moving stop to breakeven"], some rMultiple⟩
  else
    -- Check 3: Trailing Stop (after partial TP)
    let ema := getLatestEMA candles cfg.trailingEMAPeriod
    let trailingHit : Bool :=
      (position.partialTaken || position.trailingStopActive) &&
        (match ema with
         | some e => decide (¬ e = 0) && decide (currentPrice < e)
         | Option.none => false)
    if trailingHit = true then
      ⟨true, ExitType.trailing, 1, currentPrice, Option.none,
       ["Trailing stop triggered"], some rMultiple⟩
    else
      -- Check 4: Time Exit
      let holdTimeHours := ((now : ℚ) - (position.entryTime : ℚ)) / (1000 * 60 * 60)
      if holdTimeHours ≥ cfg.timeExitHours ∧ rMultiple < cfg.timeExitMinR then
        ⟨true, ExitType.time, 1, currentPrice, Option.none,
         ["Time exit"], some rMultiple⟩
      else
        ⟨false, ExitType.none, 0, currentPrice, Option.none,
         ["All exit conditions negative"], some rMultiple⟩

/-- Embeds `ExitManager.updatePosition`. The source copies the
position and mutates the copy only for a partial take-profit; the
stop is adopted only when `exitSignal.newStop` is truthy (present
and non-zero). -/
def updatePosition (position : Position) (exitSignal : ExitSignal) : Position :=
  if exitSignal.exitType = ExitType.partialTP then
    { position with
      partialTaken := true
      trailingStopActive := true
      stopPrice :=
        match exitSignal.newStop with
        | some ns => if ns = 0 then position.stopPrice else ns
        | Option.none => position.stopPrice
      amount := position.amount * (1 - exitSignal.percentage) }
  else
    position

end ExitManager

/-! ## RegimeFilter (src/strategy/regime-filter.ts) -/

/-- The `Regime` union from src/config. -/
inductive Regime where
  | BULL
  | BEAR
  | SIDEWAYS
deriving DecidableEq, Repr

/-- The slice of `RegimeConfig` read by `RegimeFilter`. -/
structure RegimeConfig where
  emaFast : ℕ
  emaSlow : ℕ
  adxPeriod : ℕ
  adxThreshold : ℚ
deriving DecidableEq, Repr

/-- The `indicators` record inside `RegimeAnalysis`. -/
structure RegimeIndicators where
  price : ℚ
  ema50 : Option ℚ
  ema200 : Option ℚ
  adx : Option ℚ
deriving DecidableEq, Repr

/-- Embeds interface `RegimeAnalysis`. The numeric interpolation in
the `reasons` strings is not modelled. -/
structure RegimeAnalysis where
  regime : Regime
  confidence : ℚ
  indicators : RegimeIndicators
  reasons : List String
deriving DecidableEq, Repr

namespace RegimeFilter

/-- Embeds `RegimeFilter.analyze`. The thrown `Error` on an empty
candle list becomes `Except.error`. The JavaScript falsiness test
`!ema50 || !ema200 || !adx` treats both null and 0 as missing. -/
def analyze (cfg : RegimeConfig) (candles : List Candle) (livePrice : Option ℚ) :
    Except String RegimeAnalysis :=
  match candles.getLast? with
  | Option.none => Except.error "No candles provided for regime analysis"
  | some lastCandle =>
    let currentPrice := livePrice.getD lastCandle.close
    let ema50 := getLatestEMA candles cfg.emaFast
    let ema200 := getLatestEMA candles cfg.emaSlow
    let adx := getLatestADX candles cfg.adxPeriod
    let indicators : RegimeIndicators := ⟨currentPrice, ema50, ema200, adx⟩
    match ema50, ema200, adx with
    | some e50, some e200, some a =>
      if e50 = 0 ∨ e200 = 0 ∨ a = 0 then
        -- falsy indicator value: treated as not enough data
        Except.ok ⟨Regime.SIDEWAYS, 0, indicators,
                   ["Insufficient data for regime analysis"]⟩
      else if currentPrice > e50 ∧ e50 > e200 ∧ a > cfg.adxThreshold then
        let trendGap := (e50 - e200) / e200
        let adxStrength := min (a / 40) 1
        let confidence := trendGap * (1 / 2) + adxStrength * (1 / 2)
        Except.ok ⟨Regime.BULL, max 0 (min 1 confidence), indicators,
                   ["Price above EMA50", "EMA50 above EMA200", "ADX above threshold"]⟩
      else if currentPrice < e50 then
        let confidence := min ((e50 - currentPrice) / e50) 1
        Except.ok ⟨Regime.BEAR, max 0 (min 1 confidence), indicators,
                   ["Price below EMA50"]⟩
      else if a < cfg.adxThreshold then
        let confidence := 1 - a / cfg.adxThreshold
        Except.ok ⟨Regime.SIDEWAYS, max 0 (min 1 confidence), indicators,
                   ["ADX below threshold, weak trend"]⟩
      else
        Except.ok ⟨Regime.SIDEWAYS, max 0 (min 1 (1 / 2)), indicators,
                   ["Mixed trend signals"]⟩
    | _, _, _ =>
      -- at least one indicator is null: not enough data
      Except.ok ⟨Regime.SIDEWAYS, 0, indicators,
                 ["Insufficient data for regime analysis"]⟩

/-- Embeds `RegimeFilter.canTrade`. -/
def canTrade (regime : Regime) : Bool :=
  regime = Regime.BULL

end RegimeFilter

/-! ## PriceFeed (src/data/price-feed.ts) -/

/-- The `source` union of interface `PriceData`. -/
inductive PriceSource where
  | pyth
  | jupiter
  | coingecko
  | binance
  | preload
deriving DecidableEq, Repr

/-- Embeds interface `PriceData`. -/
structure PriceData where
  price : ℚ
  timestamp : ℤ
  confidence : ℚ
  source : PriceSource
deriving DecidableEq, Repr

/-- The mutable cache fields of class `PriceFeed`. -/
structure FeedState where
  cachedPrice : Option PriceData
  lastUpdateTime : ℤ
deriving DecidableEq, Repr

namespace PriceFeed

/-- Embeds `PriceFeed.isPriceReasonable`: positive, at least $0.001
and at most $1,000,000 (finiteness is automatic over `ℚ`). -/
def isPriceReasonable (price : ℚ) : Bool :=
  if price ≤ 0 then false
  else if price < 1 / 1000 then false
  else if price > 1000000 then false
  else true

/-- One `try { ... } catch { ... }` provider block of
`PriceFeed.getPrice`: a plausible fetched quote is returned and
replaces the cache; an implausible or null quote falls through to
the continuation `k`; a thrown fetch returns the cached quote when
one exists and the call is not forced, otherwise falls through. -/
def tryProvider (s : FeedState) (now : ℤ) (force : Bool)
    (result : Except Unit (Option PriceData))
    (k : Except String (PriceData × FeedState)) :
    Except String (PriceData × FeedState) :=
  match result with
  | Except.ok (some q) =>
    if isPriceReasonable q.price = true then Except.ok (q, ⟨some q, now⟩) else k
  | Except.ok Option.none => k
  | Except.error _ =>
    match s.cachedPrice, force with
    | some c, false => Except.ok (c, s)
    | _, _ => k

/-- The Jupiter provider block: `getJupiterPrice` never returns
null, and its call site applies no null check. -/
def tryJupiter (s : FeedState) (now : ℤ) (force : Bool)
    (result : Except Unit PriceData)
    (k : Except String (PriceData × FeedState)) :
    Except String (PriceData × FeedState) :=
  match result with
  | Except.ok q =>
    if isPriceReasonable q.price = true then Except.ok (q, ⟨some q, now⟩) else k
  | Except.error _ =>
    match s.cachedPrice, force with
    | some c, false => Except.ok (c, s)
    | _, _ => k

/-- Embeds `PriceFeed.getPrice(force)` (the version at
src/data/price-feed.ts lines 226-300). The four network fetches
are passed in as explicit outcomes (`Except.error` for a thrown
fetch, `Except.ok Option.none` for a null result); provider order
is Binance, CoinGecko (with internal retry, one outcome), Jupiter,
Pyth. The final throw becomes `Except.error`. -/
def getPrice (cacheTTL : ℤ) (force : Bool) (s : FeedState) (now : ℤ)
    (binRes cgRes : Except Unit (Option PriceData))
    (jupRes : Except Unit PriceData)
    (pythRes : Except Unit (Option PriceData)) :
    Except String (PriceData × FeedState) :=
  let chain :=
    tryProvider s now force binRes
      (tryProvider s now force cgRes
        (tryJupiter s now force jupRes
          (tryProvider s now force pythRes
            (Except.error
              "Failed to fetch a reasonable price from CoinGecko, Jupiter or Pyth"))))
  match s.cachedPrice with
  | some c =>
    if force = false ∧ now - s.lastUpdateTime < cacheTTL then Except.ok (c, s)
    else chain
  | Option.none => chain

end PriceFeed

/-! ## Helper lemmas -/

/-- The function `checkDrawdown` never clears a latched kill switch. -/
lemma checkDrawdown_keeps_killSwitch (cfg : RiskConfig) (s : RiskManagerState)
    (h : s.killSwitchTriggered = true) :
    (RiskManager.checkDrawdown cfg s).2.killSwitchTriggered = true := by
  unfold RiskManager.checkDrawdown
  dsimp only
  split <;> simp [h]

/-- The post-state of `canTrade` is the post-state of its
`checkDrawdown` call. -/
lemma canTrade_snd (cfg : RiskConfig) (s : RiskManagerState) (now : ℤ) :
    (RiskManager.canTrade cfg s now).2 = (RiskManager.checkDrawdown cfg s).2 := by
  unfold RiskManager.canTrade
  dsimp only
  split_ifs <;> rfl

/-- No non-reset operation clears a latched kill switch. -/
lemma applyOp_keeps_killSwitch (cfg : RiskConfig) (s : RiskManagerState) (op : RMOp)
    (hop : op ≠ RMOp.reset) (h : s.killSwitchTriggered = true) :
    (applyOp cfg s op).killSwitchTriggered = true := by
  cases op with
  | updateEq v => simpa [applyOp, RiskManager.updateEquity] using h
  | checkDD => exact checkDrawdown_keeps_killSwitch cfg s h
  | trade now =>
    show (RiskManager.canTrade cfg s now).2.killSwitchTriggered = true
    rw [canTrade_snd]
    exact checkDrawdown_keeps_killSwitch cfg s h
  | reset => exact absurd rfl hop

/-- No reset-free operation sequence clears a latched kill switch. -/
lemma runOps_keeps_killSwitch (cfg : RiskConfig) (ops : List RMOp) :
    ∀ s : RiskManagerState, (∀ op ∈ ops, op ≠ RMOp.reset) →
      s.killSwitchTriggered = true → (runOps cfg s ops).killSwitchTriggered = true := by
  induction ops with
  | nil => intro s _ h; simpa [runOps] using h
  | cons op ops ih =>
    intro s hops h
    have h1 := applyOp_keeps_killSwitch cfg s op (hops op (by simp)) h
    have : runOps cfg s (op :: ops) = runOps cfg (applyOp cfg s op) ops := rfl
    rw [this]
    exact ih _ (fun o ho => hops o (by simp [ho])) h1

/-- One non-reset operation never lowers the high-water-mark. -/
lemma applyOp_hwm_mono (cfg : RiskConfig) (s : RiskManagerState) (op : RMOp)
    (hop : op ≠ RMOp.reset) :
    s.highWaterMark ≤ (applyOp cfg s op).highWaterMark := by
  cases op with
  | updateEq v =>
    show s.highWaterMark ≤ (RiskManager.updateEquity s v).highWaterMark
    unfold RiskManager.updateEquity
    dsimp only
    split
    · exact le_of_lt (by assumption)
    · exact le_refl _
  | checkDD =>
    show s.highWaterMark ≤ (RiskManager.checkDrawdown cfg s).2.highWaterMark
    unfold RiskManager.checkDrawdown
    dsimp only
    split <;> simp
  | trade now =>
    show s.highWaterMark ≤ (RiskManager.canTrade cfg s now).2.highWaterMark
    rw [canTrade_snd]
    unfold RiskManager.checkDrawdown
    dsimp only
    split <;> simp
  | reset => exact absurd rfl hop

/-! ## Claims about PositionSizer and RiskManager -/

/-- C1: evaluating `PositionSizer.calculate` at the spec scenario
equity=10000, entryPrice=105, stopPrice=102, riskPercent=0.01,
maxPositionPercent=0.40. The code yields riskAmount=100 and
stopDistance=3 as the claim states, but the final USD size is
`min(100/3, 4000) = 100/3 ≈ 33.33`, not 3500: the code assigns the
asset-unit formula `riskAmount / stopDistance` directly to
`sizeUSDC` without multiplying by the entry price, so the realized
potential loss at the stop is 20/21 ≈ 0.95 USD instead of the
intended 100 USD risk amount. -/
theorem c1_position_sizer_scenario :
    Ironchain.PositionSizer.calculate ⟨10000, 105, 102, 1 / 100, 2 / 5⟩ =
      Except.ok ⟨100 / 3, 20 / 63, 20 / 21, 1 / 300⟩ ∧
    (10000 * (1 / 100) : ℚ) = 100 ∧
    (|(105 : ℚ) - 102|) = 3 ∧
    ((100 : ℚ) / 3) ≠ 3500 := by
  refine ⟨?_, by norm_num, by norm_num, by norm_num⟩
  unfold Ironchain.PositionSizer.calculate
  norm_num [min_def]

/-- C5: the equity sequence [1000, 1200, 1150, 790] with
maxDrawdownPercent=0.20 and the kill switch enabled leaves the
high-water-mark at 1200; `checkDrawdown` at the last point reports
drawdown (1200-790)/1200 = 41/120 ≥ 0.20 and latches the kill
switch, which then stays latched under every further reset-free
operation sequence. -/
theorem c5_drawdown_scenario :
    (runOps ⟨1 / 5, true⟩ (RiskManager.init 1000 0)
        [RMOp.updateEq 1000, RMOp.updateEq 1200, RMOp.updateEq 1150,
         RMOp.updateEq 790]).highWaterMark = 1200 ∧
    (RiskManager.checkDrawdown ⟨1 / 5, true⟩
        (runOps ⟨1 / 5, true⟩ (RiskManager.init 1000 0)
          [RMOp.updateEq 1000, RMOp.updateEq 1200, RMOp.updateEq 1150,
           RMOp.updateEq 790])).1 = 41 / 120 ∧
    (1 / 5 : ℚ) ≤ 41 / 120 ∧
    (RiskManager.checkDrawdown ⟨1 / 5, true⟩
        (runOps ⟨1 / 5, true⟩ (RiskManager.init 1000 0)
          [RMOp.updateEq 1000, RMOp.updateEq 1200, RMOp.updateEq 1150,
           RMOp.updateEq 790])).2.killSwitchTriggered = true ∧
    (∀ ops : List RMOp, (∀ op ∈ ops, op ≠ RMOp.reset) →
      (runOps ⟨1 / 5, true⟩
        (RiskManager.checkDrawdown ⟨1 / 5, true⟩
          (runOps ⟨1 / 5, true⟩ (RiskManager.init 1000 0)
            [RMOp.updateEq 1000, RMOp.updateEq 1200, RMOp.updateEq 1150,
             RMOp.updateEq 790])).2 ops).killSwitchTriggered = true) := by
  have hrun : runOps ⟨1 / 5, true⟩ (RiskManager.init 1000 0)
      [RMOp.updateEq 1000, RMOp.updateEq 1200, RMOp.updateEq 1150, RMOp.updateEq 790]
      = ⟨1200, 790, false, 0⟩ := by
    simp only [runOps, List.foldl, applyOp, RiskManager.updateEquity, RiskManager.init]
    norm_num
  have hchk : RiskManager.checkDrawdown ⟨1 / 5, true⟩
      (⟨1200, 790, false, 0⟩ : RiskManagerState) = (41 / 120, ⟨1200, 790, true, 0⟩) := by
    unfold RiskManager.checkDrawdown
    dsimp only
    norm_num
  refine ⟨by rw [hrun], by rw [hrun, hchk], by norm_num, by rw [hrun, hchk], ?_⟩
  intro ops hops
  rw [hrun, hchk]
  exact runOps_keeps_killSwitch _ ops _ hops rfl

/-- C5 witness: the latched kill switch survives a concrete further
drawdown check. -/
theorem c5_drawdown_scenario_witness :
    (runOps ⟨1 / 5, true⟩
      (RiskManager.checkDrawdown ⟨1 / 5, true⟩
        (runOps ⟨1 / 5, true⟩ (RiskManager.init 1000 0)
          [RMOp.updateEq 1000, RMOp.updateEq 1200, RMOp.updateEq 1150,
           RMOp.updateEq 790])).2 [RMOp.checkDD]).killSwitchTriggered = true :=
  c5_drawdown_scenario.2.2.2.2 [RMOp.checkDD] (by decide)

/-- C8 counterexample: `reset` lowers the high-water-mark to the
current equity, so the claim that the high-water-mark never
decreases under any interleaving that includes `reset` is false:
after equities 1200 then 790 the HWM is 1200, and the subsequent
`reset` lowers it to 790. -/
theorem c8_counterexample :
    (runOps ⟨1 / 5, true⟩ (RiskManager.init 1000 0)
        [RMOp.updateEq 1200, RMOp.updateEq 790]).highWaterMark = 1200 ∧
    (runOps ⟨1 / 5, true⟩ (RiskManager.init 1000 0)
        [RMOp.updateEq 1200, RMOp.updateEq 790, RMOp.reset]).highWaterMark = 790 ∧
    (790 : ℚ) < 1200 := by
  refine ⟨?_, ?_, by norm_num⟩
  · simp only [runOps, List.foldl, applyOp, RiskManager.updateEquity, RiskManager.init]
    norm_num
  · simp only [runOps, List.foldl, applyOp, RiskManager.updateEquity,
      RiskManager.reset, RiskManager.init]

/-- C8 amended: under every sequence of `updateEquity`,
`checkDrawdown` and `canTrade` operations — i.e. every interleaving
that contains no `reset` — the high-water-mark never decreases;
`reset` instead lowers it to the current equity. -/
theorem c8_hwm_monotone (cfg : RiskConfig) (s : RiskManagerState) (ops : List RMOp)
    (hops : ∀ op ∈ ops, op ≠ RMOp.reset) :
    s.highWaterMark ≤ (runOps cfg s ops).highWaterMark := by
  induction ops generalizing s with
  | nil => exact le_refl _
  | cons op ops ih =>
    have h1 := applyOp_hwm_mono cfg s op (hops op (by simp))
    have h2 := ih (applyOp cfg s op) (fun o ho => hops o (by simp [ho]))
    exact le_trans h1 h2

/-- C8 witness: monotonicity at a concrete state and operation
sequence. -/
theorem c8_hwm_monotone_witness :
    (RiskManager.init 1000 0).highWaterMark ≤
      (runOps ⟨1 / 5, true⟩ (RiskManager.init 1000 0)
        [RMOp.updateEq 500, RMOp.checkDD, RMOp.trade 70000]).highWaterMark :=
  c8_hwm_monotone ⟨1 / 5, true⟩ (RiskManager.init 1000 0)
    [RMOp.updateEq 500, RMOp.checkDD, RMOp.trade 70000] (by decide)

/-- C9: within the startup grace window (less than 60 s after
construction) `canTrade` reports tradable for every state; after
the window it reports not tradable, with a reason, whenever the
kill switch is already latched. -/
theorem c9_grace_window (cfg : RiskConfig) (s : RiskManagerState) (now : ℤ) :
    (now - s.startedAt < RiskManager.startupGraceMs →
      (RiskManager.canTrade cfg s now).1.canTrade = true) ∧
    (¬ now - s.startedAt < RiskManager.startupGraceMs →
      s.killSwitchTriggered = true →
      (RiskManager.canTrade cfg s now).1.canTrade = false ∧
      ((RiskManager.canTrade cfg s now).1.reason).isSome = true) := by
  constructor
  · intro hgrace
    unfold RiskManager.canTrade
    dsimp only
    rw [if_pos hgrace]
  · intro hgrace hkill
    have hkeep := checkDrawdown_keeps_killSwitch cfg s hkill
    unfold RiskManager.canTrade
    dsimp only
    rw [if_neg hgrace, if_pos hkeep]
    simp

/-- C9 witness: a concrete in-grace call is tradable even with the
kill switch latched, and a concrete post-grace call with the kill
switch latched is not tradable and carries a reason. -/
theorem c9_grace_window_witness :
    (RiskManager.canTrade ⟨1 / 5, true⟩ ⟨1000, 100, true, 0⟩ 1000).1.canTrade = true ∧
    (RiskManager.canTrade ⟨1 / 5, true⟩ ⟨1000, 100, true, 0⟩ 60000).1.canTrade = false ∧
    ((RiskManager.canTrade ⟨1 / 5, true⟩ ⟨1000, 100, true, 0⟩ 60000).1.reason).isSome
      = true := by
  refine ⟨(c9_grace_window ⟨1 / 5, true⟩ ⟨1000, 100, true, 0⟩ 1000).1 (by decide), ?_, ?_⟩
  · exact ((c9_grace_window ⟨1 / 5, true⟩ ⟨1000, 100, true, 0⟩ 60000).2
      (by decide) rfl).1
  · exact ((c9_grace_window ⟨1 / 5, true⟩ ⟨1000, 100, true, 0⟩ 60000).2
      (by decide) rfl).2

/-! ## Claims about ExitManager -/

/-- C4: `checkExit` evaluates exits in strict priority order with
first match winning: whenever the stop condition
(currentPrice ≤ stopPrice) and the partial-take-profit condition
(partialTaken = false and rMultiple ≥ partialTPRMultiple) hold
simultaneously, the returned signal is a full stop exit
(exitType `stop`, percentage 1). -/
theorem c4_stop_wins (cfg : ExitConfig) (p : Position) (candles : List Candle)
    (currentPrice : ℚ) (now : ℤ)
    (hstop : currentPrice ≤ p.stopPrice)
    (hpartialFlag : p.partialTaken = false)
    (hpartialR : (currentPrice - p.entryPrice) / (p.entryPrice - p.stopPrice)
      ≥ cfg.partialTPRMultiple) :
    (ExitManager.checkExit cfg p candles currentPrice now).exitType = ExitType.stop ∧
    (ExitManager.checkExit cfg p candles currentPrice now).percentage = 1 := by
  unfold ExitManager.checkExit
  dsimp only
  rw [if_pos hstop]
  exact ⟨rfl, rfl⟩

/-- C4 witness: a concrete position above its entry-relative stop
(stop above entry) where both the stop and partial-TP conditions
hold, and the stop exit wins. -/
theorem c4_stop_wins_witness :
    (ExitManager.checkExit ⟨2, -1, 1 / 2, 20, 48, 1⟩ ⟨100, 1, 110, 0, false, false⟩
        [] 105 0).exitType = ExitType.stop ∧
    (ExitManager.checkExit ⟨2, -1, 1 / 2, 20, 48, 1⟩ ⟨100, 1, 110, 0, false, false⟩
        [] 105 0).percentage = 1 :=
  c4_stop_wins ⟨2, -1, 1 / 2, 20, 48, 1⟩ ⟨100, 1, 110, 0, false, false⟩ [] 105 0
    (by norm_num) rfl (by norm_num)

/-- C10: `updatePosition` mutates nothing except under a partial
take-profit: for any signal whose exitType is not `partial_tp` the
input position is returned unchanged; for a `partial_tp` signal
only `partialTaken`, `trailingStopActive`, `stopPrice` (adopted
from a truthy `newStop`) and `amount` (scaled by 1 - percentage)
change, while `entryPrice` and `entryTime` are unchanged. -/
theorem c10_updatePosition_frame (p : Position) (sig : ExitSignal) :
    (sig.exitType ≠ ExitType.partialTP → ExitManager.updatePosition p sig = p) ∧
    (sig.exitType = ExitType.partialTP →
      (ExitManager.updatePosition p sig).entryPrice = p.entryPrice ∧
      (ExitManager.updatePosition p sig).entryTime = p.entryTime ∧
      (ExitManager.updatePosition p sig).partialTaken = true ∧
      (ExitManager.updatePosition p sig).trailingStopActive = true ∧
      (ExitManager.updatePosition p sig).amount = p.amount * (1 - sig.percentage) ∧
      (ExitManager.updatePosition p sig).stopPrice =
        (match sig.newStop with
         | some ns => if ns = 0 then p.stopPrice else ns
         | Option.none => p.stopPrice)) := by
  constructor
  · intro h
    unfold ExitManager.updatePosition
    rw [if_neg h]
  · intro h
    unfold ExitManager.updatePosition
    rw [if_pos h]
    exact ⟨rfl, rfl, rfl, rfl, rfl, rfl⟩

/-- C10 witness: a concrete full-stop signal leaves the position
unchanged, and a concrete partial-TP signal rescales the amount
while keeping entry price and entry time. -/
theorem c10_updatePosition_frame_witness :
    ExitManager.updatePosition ⟨100, 2, 95, 7, false, false⟩
      ⟨true, ExitType.stop, 1, 94, Option.none, [], some (-2)⟩
      = ⟨100, 2, 95, 7, false, false⟩ ∧
    (ExitManager.updatePosition ⟨100, 2, 95, 7, false, false⟩
      ⟨true, ExitType.partialTP, 1 / 2, 109, some 100, [], some 3⟩).entryPrice = 100 ∧
    (ExitManager.updatePosition ⟨100, 2, 95, 7, false, false⟩
      ⟨true, ExitType.partialTP, 1 / 2, 109, some 100, [], some 3⟩).amount
      = 2 * (1 - 1 / 2) := by
  refine ⟨(c10_updatePosition_frame ⟨100, 2, 95, 7, false, false⟩
      ⟨true, ExitType.stop, 1, 94, Option.none, [], some (-2)⟩).1 (by simp), ?_, ?_⟩
  · exact ((c10_updatePosition_frame ⟨100, 2, 95, 7, false, false⟩
      ⟨true, ExitType.partialTP, 1 / 2, 109, some 100, [], some 3⟩).2 rfl).1
  · exact ((c10_updatePosition_frame ⟨100, 2, 95, 7, false, false⟩
      ⟨true, ExitType.partialTP, 1 / 2, 109, some 100, [], some 3⟩).2 rfl).2.2.2.2.1

/-! ## Claims about RegimeFilter -/

/-- C3 counterexample: on the empty candle list `analyze` throws
(`Except.error`) instead of returning SIDEWAYS with confidence 0,
so the claim is false for the empty list. -/
theorem c3_counterexample :
    RegimeFilter.analyze ⟨50, 200, 14, 25⟩ [] Option.none =
      Except.error "No candles provided for regime analysis" := rfl

/-- C3 amended: for every NON-EMPTY candle list on which a trend
indicator (fast EMA, slow EMA or ADX) is undefined because history
is insufficient, `analyze` returns regime SIDEWAYS with confidence
0 instead of failing; the empty candle list instead throws. -/
theorem c3_insufficient_history (cfg : RegimeConfig) (candles : List Candle)
    (livePrice : Option ℚ) (hne : candles ≠ [])
    (hind : getLatestEMA candles cfg.emaFast = Option.none ∨
            getLatestEMA candles cfg.emaSlow = Option.none ∨
            getLatestADX candles cfg.adxPeriod = Option.none) :
    ∃ res : RegimeAnalysis,
      RegimeFilter.analyze cfg candles livePrice = Except.ok res ∧
      res.regime = Regime.SIDEWAYS ∧ res.confidence = 0 := by
  obtain ⟨lastCandle, hlast⟩ : ∃ c, candles.getLast? = some c := by
    cases h : candles.getLast? with
    | none => exact absurd (List.getLast?_eq_none_iff.mp h) hne
    | some c => exact ⟨c, rfl⟩
  unfold RegimeFilter.analyze
  rw [hlast]
  dsimp only
  cases h50 : getLatestEMA candles cfg.emaFast with
  | none => exact ⟨_, rfl, rfl, rfl⟩
  | some e50 =>
    cases h200 : getLatestEMA candles cfg.emaSlow with
    | none => exact ⟨_, rfl, rfl, rfl⟩
    | some e200 =>
      cases ha : getLatestADX candles cfg.adxPeriod with
      | none => exact ⟨_, rfl, rfl, rfl⟩
      | some a =>
        rw [h50, h200, ha] at hind
        rcases hind with h | h | h <;> exact absurd h (by simp)

/-- C3 witness: a single candle is not enough history for a
50-period EMA, and `analyze` returns SIDEWAYS with confidence 0. -/
theorem c3_insufficient_history_witness :
    ∃ res : RegimeAnalysis,
      RegimeFilter.analyze ⟨50, 200, 14, 25⟩ [⟨0, 1, 1, 1, 1, 0⟩] Option.none
        = Except.ok res ∧
      res.regime = Regime.SIDEWAYS ∧ res.confidence = 0 :=
  c3_insufficient_history ⟨50, 200, 14, 25⟩ [⟨0, 1, 1, 1, 1, 0⟩] Option.none
    (by simp) (Or.inl rfl)

/-! ## Claims about CandleBuilder -/

/-- The OHLC ordering invariant of a candle. -/
def candleOK (c : Candle) : Prop :=
  c.low ≤ min c.open_ c.close ∧ max c.open_ c.close ≤ c.high

/-- A candle is well formed for a timeframe when its OHLC values
are ordered and its timestamp sits on a bucket boundary. -/
def tfCandleOK (tfMs : ℕ) (c : Candle) : Prop :=
  candleOK c ∧ tfMs ∣ c.timestamp

/-- Every closed and in-progress candle of a timeframe state is
well formed. -/
def TFInv (tfMs : ℕ) (s : TFState) : Prop :=
  (∀ c ∈ s.history, tfCandleOK tfMs c) ∧
  (∀ c : Candle, s.current = some c → tfCandleOK tfMs c)

/-- Every candle of every tracked timeframe is well formed. -/
def BuilderInv (b : BuilderState) : Prop :=
  TFInv 900000 b.m15 ∧ TFInv 3600000 b.h1 ∧ TFInv 14400000 b.h4

/-- A freshly opened candle is well formed for its timeframe. -/
lemma fresh_tfCandleOK (tfMs : ℕ) (t : ℕ) (p v : ℚ) :
    tfCandleOK tfMs ⟨CandleBuilder.getCandleStartTime tfMs t, p, p, p, p, v⟩ := by
  refine ⟨⟨?_, ?_⟩, ?_⟩
  · simp
  · simp
  · exact dvd_mul_left tfMs (t / tfMs)

/-- Updating a candle inside its bucket preserves the OHLC
ordering. -/
lemma update_candleOK (c : Candle) (p vol : ℚ) (h : candleOK c) :
    candleOK { c with high := max c.high p, low := min c.low p, close := p,
                      volume := c.volume + vol } := by
  obtain ⟨hlow, hhigh⟩ := h
  constructor
  · exact le_min (le_trans (min_le_left _ _) (le_trans hlow (min_le_left _ _)))
      (min_le_right _ _)
  · exact max_le (le_trans (le_trans (le_max_left _ _) hhigh) (le_max_left _ _))
      (le_max_right _ _)

/-- The function `closeCandle` only stores candles that were already in the
history or the sealed candle itself. -/
lemma closeCandle_forall {P : Candle → Prop} (history : List Candle) (c : Candle)
    (hh : ∀ x ∈ history, P x) (hc : P c) :
    ∀ x ∈ CandleBuilder.closeCandle history c, P x := by
  intro x hx
  unfold CandleBuilder.closeCandle at hx
  dsimp only at hx
  have hmem : x ∈ history ++ [c] := by
    by_cases hlen : CandleBuilder.maxCandles < (history ++ [c]).length
    · rw [if_pos hlen] at hx
      exact List.mem_of_mem_tail hx
    · rwa [if_neg hlen] at hx
  rcases List.mem_append.mp hmem with h | h
  · exact hh x h
  · rw [List.mem_singleton.mp h]
    exact hc

/-- The function `updateCandle` preserves the per-timeframe invariant. -/
lemma updateCandle_inv (tfMs : ℕ) (tick : TickData) (s : TFState)
    (hinv : TFInv tfMs s) : TFInv tfMs (CandleBuilder.updateCandle tfMs tick s) := by
  obtain ⟨hist, cur⟩ := s
  obtain ⟨hhist, hcur⟩ := hinv
  cases cur with
  | none =>
    refine ⟨hhist, fun c' h => ?_⟩
    cases Option.some.inj h
    exact fresh_tfCandleOK tfMs tick.timestamp tick.price (tick.volume.getD 0)
  | some c =>
    have hc : tfCandleOK tfMs c := hcur c rfl
    dsimp only [CandleBuilder.updateCandle]
    split
    · refine ⟨closeCandle_forall hist c hhist hc, fun c' h => ?_⟩
      cases Option.some.inj h
      exact fresh_tfCandleOK tfMs tick.timestamp tick.price (tick.volume.getD 0)
    · refine ⟨hhist, fun c' h => ?_⟩
      cases Option.some.inj h
      exact ⟨update_candleOK c tick.price (tick.volume.getD 0) hc.1, hc.2⟩

/-- The function `addTick` preserves the builder invariant. -/
lemma addTick_inv (tick : TickData) (b : BuilderState) (h : BuilderInv b) :
    BuilderInv (CandleBuilder.addTick tick b) :=
  ⟨updateCandle_inv 900000 tick b.m15 h.1,
   updateCandle_inv 3600000 tick b.h1 h.2.1,
   updateCandle_inv 14400000 tick b.h4 h.2.2⟩

/-- The builder invariant holds along any fold of `addTick`. -/
lemma builderInv_foldl (ticks : List TickData) :
    ∀ b : BuilderState, BuilderInv b →
      BuilderInv (ticks.foldl (fun s t => CandleBuilder.addTick t s) b) := by
  induction ticks with
  | nil => intro b h; exact h
  | cons t ts ih => intro b h; exact ih _ (addTick_inv t b h)

/-- C6: for every tick sequence fed to `addTick` from the fresh
constructor state, every candle — closed or in-progress, on every
tracked timeframe — satisfies
low ≤ min(open, close) ≤ max(open, close) ≤ high, and every
candle's timestamp is an exact multiple of its timeframe's
duration in milliseconds. -/
theorem c6_candle_invariants (ticks : List TickData) :
    BuilderInv (CandleBuilder.runTicks ticks) :=
  builderInv_foldl ticks CandleBuilder.initBuilder
    ⟨⟨fun _ h => absurd h (List.not_mem_nil _), fun _ h => Option.noConfusion h⟩,
     ⟨fun _ h => absurd h (List.not_mem_nil _), fun _ h => Option.noConfusion h⟩,
     ⟨fun _ h => absurd h (List.not_mem_nil _), fun _ h => Option.noConfusion h⟩⟩

/-- C7: against an in-progress candle (and a history within the
ring-buffer cap, as `addTick` maintains), a tick in the same bucket
leaves the closed history unchanged, while a tick in a different
bucket appends exactly one closed candle — the sealed one, trimmed
to the 1000-candle cap — and opens exactly one new in-progress
candle with O = H = L = C equal to the tick's price. -/
theorem c7_bucket_transitions (tfMs : ℕ) (tick : TickData) (s : TFState) (c : Candle)
    (hcur : s.current = some c)
    (hlen : s.history.length ≤ CandleBuilder.maxCandles) :
    (CandleBuilder.getCandleStartTime tfMs tick.timestamp = c.timestamp →
      (CandleBuilder.updateCandle tfMs tick s).history = s.history) ∧
    (CandleBuilder.getCandleStartTime tfMs tick.timestamp ≠ c.timestamp →
      (CandleBuilder.updateCandle tfMs tick s).history.length
        = min (s.history.length + 1) CandleBuilder.maxCandles ∧
      (CandleBuilder.updateCandle tfMs tick s).history.getLast? = some c ∧
      (CandleBuilder.updateCandle tfMs tick s).current =
        some ⟨CandleBuilder.getCandleStartTime tfMs tick.timestamp, tick.price,
              tick.price, tick.price, tick.price, tick.volume.getD 0⟩) := by
  unfold CandleBuilder.updateCandle
  rw [hcur]
  dsimp only
  constructor
  · intro heq
    rw [if_neg (by simp [heq])]
  · intro hne
    rw [if_pos (fun h => hne h.symm)]
    refine ⟨?_, ?_, rfl⟩
    · unfold CandleBuilder.closeCandle
      dsimp only
      by_cases hbig : CandleBuilder.maxCandles < (s.history ++ [c]).length
      · rw [if_pos hbig, List.length_tail, List.length_append, List.length_singleton]
        rw [List.length_append, List.length_singleton] at hbig
        rw [Nat.min_def]
        unfold CandleBuilder.maxCandles at hbig hlen ⊢
        split <;> omega
      · rw [if_neg hbig, List.length_append, List.length_singleton]
        rw [List.length_append, List.length_singleton] at hbig
        rw [Nat.min_def]
        unfold CandleBuilder.maxCandles at hbig hlen ⊢
        split <;> omega
    · unfold CandleBuilder.closeCandle
      dsimp only
      by_cases hbig : CandleBuilder.maxCandles < (s.history ++ [c]).length
      · rw [if_pos hbig]
        cases hh : s.history with
        | nil =>
          rw [hh] at hbig
          simp [CandleBuilder.maxCandles] at hbig
        | cons x xs =>
          rw [List.cons_append, List.tail_cons]
          exact List.getLast?_concat _
      · rw [if_neg hbig]
        exact List.getLast?_concat _

/-- C7 witness: with an empty history and an in-progress candle in
bucket 0 of the 15m timeframe, a tick at 900000 ms crosses the
bucket boundary: the history becomes the single sealed candle and
a fresh candle opens at the tick's price. -/
theorem c7_bucket_transitions_witness :
    (CandleBuilder.updateCandle 900000 ⟨5, 900000, Option.none⟩
        ⟨[], some ⟨0, 1, 2, 1, 1, 0⟩⟩).history.length
      = min (([] : List Candle).length + 1) CandleBuilder.maxCandles ∧
    (CandleBuilder.updateCandle 900000 ⟨5, 900000, Option.none⟩
        ⟨[], some ⟨0, 1, 2, 1, 1, 0⟩⟩).history.getLast? = some ⟨0, 1, 2, 1, 1, 0⟩ ∧
    (CandleBuilder.updateCandle 900000 ⟨5, 900000, Option.none⟩
        ⟨[], some ⟨0, 1, 2, 1, 1, 0⟩⟩).current =
      some ⟨CandleBuilder.getCandleStartTime 900000 900000, 5, 5, 5, 5, 0⟩ :=
  (c7_bucket_transitions 900000 ⟨5, 900000, Option.none⟩ ⟨[], some ⟨0, 1, 2, 1, 1, 0⟩⟩
      ⟨0, 1, 2, 1, 1, 0⟩ rfl (by simp)).2 (by decide)

/-! ## Claims about PriceFeed -/

/-- A provider block whose fetch succeeded with a null or
implausible quote falls through to the continuation. -/
lemma tryProvider_passes (s : FeedState) (now : ℤ) (force : Bool)
    (b : Option PriceData) (k : Except String (PriceData × FeedState))
    (h : ∀ pd, b = some pd → PriceFeed.isPriceReasonable pd.price = false) :
    PriceFeed.tryProvider s now force (Except.ok b) k = k := by
  cases b with
  | none => rfl
  | some pd =>
    unfold PriceFeed.tryProvider
    dsimp only
    rw [h pd rfl]
    simp

/-- A provider block whose fetch threw returns the cached quote on
a non-forced call with a cache. -/
lemma tryProvider_error_cache (s : FeedState) (now : ℤ) (e : Unit)
    (k : Except String (PriceData × FeedState)) (q : PriceData)
    (hq : s.cachedPrice = some q) :
    PriceFeed.tryProvider s now false (Except.error e) k = Except.ok (q, s) := by
  unfold PriceFeed.tryProvider
  rw [hq]

/-- The Jupiter block with an implausible quote falls through. -/
lemma tryJupiter_passes (s : FeedState) (now : ℤ) (force : Bool)
    (pd : PriceData) (k : Except String (PriceData × FeedState))
    (h : PriceFeed.isPriceReasonable pd.price = false) :
    PriceFeed.tryJupiter s now force (Except.ok pd) k = k := by
  unfold PriceFeed.tryJupiter
  dsimp only
  rw [h]
  simp

/-- The Jupiter block whose fetch threw returns the cached quote on
a non-forced call with a cache. -/
lemma tryJupiter_error_cache (s : FeedState) (now : ℤ) (e : Unit)
    (k : Except String (PriceData × FeedState)) (q : PriceData)
    (hq : s.cachedPrice = some q) :
    PriceFeed.tryJupiter s now false (Except.error e) k = Except.ok (q, s) := by
  unfold PriceFeed.tryJupiter
  rw [hq]

/-- C2 counterexample: a forced `getPrice` call never falls back to
the cache. With a cached quote present and every provider throwing,
the forced call throws the final error instead of returning the
cached quote, so the claim that an error is thrown only when no
cached quote exists is false. -/
theorem c2_counterexample :
    PriceFeed.getPrice 30000 true ⟨some ⟨100, 0, 0, PriceSource.binance⟩, 0⟩ 1000
      (Except.error ()) (Except.error ()) (Except.error ()) (Except.error ()) =
      Except.error "Failed to fetch a reasonable price from CoinGecko, Jupiter or Pyth" :=
  rfl

/-- C2 amended: the cache fallback fires only on non-forced calls
and only from a thrown provider fetch. On a non-forced call with a
cached quote, if no provider returns a plausible price and at least
one provider throws, `getPrice` returns the last good cached quote
(either fresh from the TTL check or stale from the first catch
block) and leaves the cache state unchanged; a forced call in the
same situation instead throws. -/
theorem c2_cache_fallback (cacheTTL : ℤ) (s : FeedState) (now : ℤ)
    (binRes cgRes : Except Unit (Option PriceData))
    (jupRes : Except Unit PriceData)
    (pythRes : Except Unit (Option PriceData))
    (q : PriceData) (hcache : s.cachedPrice = some q)
    (hbin : ∀ pd, binRes = Except.ok (some pd) →
      PriceFeed.isPriceReasonable pd.price = false)
    (hcg : ∀ pd, cgRes = Except.ok (some pd) →
      PriceFeed.isPriceReasonable pd.price = false)
    (hjup : ∀ pd, jupRes = Except.ok pd →
      PriceFeed.isPriceReasonable pd.price = false)
    (hpyth : ∀ pd, pythRes = Except.ok (some pd) →
      PriceFeed.isPriceReasonable pd.price = false)
    (herr : binRes.isOk = false ∨ cgRes.isOk = false ∨
            jupRes.isOk = false ∨ pythRes.isOk = false) :
    PriceFeed.getPrice cacheTTL false s now binRes cgRes jupRes pythRes =
      Except.ok (q, s) := by
  unfold PriceFeed.getPrice
  dsimp only
  rw [hcache]
  dsimp only
  by_cases hfresh : ((false : Bool) = false ∧ now - s.lastUpdateTime < cacheTTL)
  · rw [if_pos hfresh]
  · rw [if_neg hfresh]
    cases hb : binRes with
    | error e => exact tryProvider_error_cache s now e _ q hcache
    | ok b =>
      rw [tryProvider_passes s now false b _ (fun pd hpd => hbin pd (by rw [hb, hpd]))]
      cases hc : cgRes with
      | error e => exact tryProvider_error_cache s now e _ q hcache
      | ok bcg =>
        rw [tryProvider_passes s now false bcg _ (fun pd hpd => hcg pd (by rw [hc, hpd]))]
        cases hj : jupRes with
        | error e => exact tryJupiter_error_cache s now e _ q hcache
        | ok pdj =>
          rw [tryJupiter_passes s now false pdj _ (hjup pdj hj)]
          cases hp : pythRes with
          | error e => exact tryProvider_error_cache s now e _ q hcache
          | ok bp =>
            exfalso
            rcases herr with h | h | h | h
            · rw [hb] at h
              exact Bool.noConfusion h
            · rw [hc] at h
              exact Bool.noConfusion h
            · rw [hj] at h
              exact Bool.noConfusion h
            · rw [hp] at h
              exact Bool.noConfusion h

/-- C2 witness: a concrete non-forced call with a stale cache and
every provider throwing returns the cached quote. -/
theorem c2_cache_fallback_witness :
    PriceFeed.getPrice 30000 false ⟨some ⟨100, 0, 0, PriceSource.binance⟩, 0⟩ 100000
      (Except.error ()) (Except.error ()) (Except.error ()) (Except.error ()) =
      Except.ok (⟨100, 0, 0, PriceSource.binance⟩,
        ⟨some ⟨100, 0, 0, PriceSource.binance⟩, 0⟩) :=
  c2_cache_fallback 30000 ⟨some ⟨100, 0, 0, PriceSource.binance⟩, 0⟩ 100000
    (Except.error ()) (Except.error ()) (Except.error ()) (Except.error ())
    ⟨100, 0, 0, PriceSource.binance⟩ rfl
    (fun _ h => nomatch h) (fun _ h => nomatch h) (fun _ h => nomatch h)
    (fun _ h => nomatch h) (Or.inl rfl)

end Ironchain
